import Mathlib

/-!
# Shallow embedding of the Time Capsule backup/recovery subsystem

This file embeds the backup and recovery core of the repository
(`src/backup/backup_system.py`, class `TimeCapsuleBackupSystem`, and
`src/backup/recovery_manager.py`, class `RecoveryManager`) as executable Lean
definitions and proves properties of the embedded operations.

Modelling conventions:

* File contents are byte strings, modelled as `List Nat`; a file's size is the
  length of its content.
* Timestamps are abstract UTC instants modelled as `Nat`, at day granularity
  (the catalog stores `timestamp.isoformat()` as TEXT and `ORDER BY timestamp
  DESC` agrees with chronological order because all rows use the same
  fixed-width UTC format; `(now - t).days` of two day-granularity instants is
  their difference).
* The SHA-256 digest of an archive is idealised as an injective fingerprint
  and therefore identified with the archive content it fingerprints
  (`digest := id`).  No claim depends on hash collisions.
* A `tar.gz` file on disk is either a well-formed archive produced by
  `tarfile` (carrying the staged tree) or arbitrary/partial bytes that make
  `tarfile.extractall` raise.
* The sqlite tables `backups` and `restore_points` are lists of records; the
  display-only columns `description`, `constitution_rules`, `conversations`,
  `documents`, `created_by` and `tags` are never read by any verified
  operation and are omitted from the rows.
* Directories under `temp_path` and the archive files under `backups_path`
  are association lists keyed by name; writing a file at an existing path
  replaces it.
* Injected I/O failures: `create_backup` takes an oracle saying which stage
  (staging copy, tar write, checksum read, sqlite insert) raises an
  `IOError`, mirroring "any I/O error aborts the operation".
-/

/-- A file's content: a byte string. -/
abbrev FileBytes := List Nat

/-- A `.tar.gz` file on disk: either a well-formed archive as written by
`tarfile` (carrying the staged tree of relative path ↦ content), or
partial/corrupt bytes on which `tarfile.extractall` raises. -/
inductive ArchiveFile
  | valid (tree : List (String × FileBytes))
  | corrupt (junk : Nat)
deriving DecidableEq, Repr

/-- SHA-256 digests are idealised as injective fingerprints of the hashed
bytes, so a digest is identified with the archive content it fingerprints. -/
abbrev Digest := ArchiveFile

/-- `TimeCapsuleBackupSystem._calculate_file_checksum`: streaming SHA-256 of a
file, idealised (see `Digest`). -/
def _calculate_file_checksum (a : ArchiveFile) : Digest := a

/-- `TimeCapsuleBackupSystem._extract_compressed_archive`: `tarfile.extractall`
returns the archived tree on a well-formed archive and raises (`none`) on
corrupt bytes. -/
def _extract_compressed_archive : ArchiveFile → Option (List (String × FileBytes))
  | .valid tree => some tree
  | .corrupt _ => none

/-- One row of the `backups` table (display-only columns omitted, see the
header comment). `checksum` is the stored SHA-256 of the archive file. -/
structure BackupRow where
  backup_id : String
  timestamp : Nat
  backup_type : String
  files_included : List String
  total_size_bytes : Nat
  compressed_size_bytes : Nat
  checksum : Digest
  verification_status : String
  retention_days : Nat
deriving DecidableEq, Repr

/-- One row of the `restore_points` table (scope booleans and description
omitted; no verified operation reads them back). -/
structure RestoreRow where
  restore_id : String
  backup_id : String
  status : String
  progress_percent : ℚ
  error_message : String
deriving DecidableEq, Repr

/-- One durably persisted write of a restore row (`_save_restore_point` or
`_update_restore_point`): the status and progress the poller would observe. -/
structure RWrite where
  status : String
  progress_percent : ℚ
deriving DecidableEq, Repr

/-- State of the system: the two catalog tables, the archive files under
`backups_path`, the live files under the configured data roots (relative
path ↦ content), and the directories existing under `temp_path`. -/
structure SysState where
  backups : List BackupRow
  restore_points : List RestoreRow
  archives : List (String × ArchiveFile)
  dataRoots : List (String × FileBytes)
  temp : List String
deriving DecidableEq, Repr

/-- Association-list lookup (first binding wins), keyed by name. -/
def alookup {β : Type} (k : String) : List (String × β) → Option β
  | [] => none
  | (k', v) :: rest => if k' = k then some v else alookup k rest

/-- Remove every binding for `k` (deleting a file / `shutil.rmtree`). -/
def aerase {β : Type} (k : String) (l : List (String × β)) : List (String × β) :=
  l.filter (fun p => decide (p.1 ≠ k))

/-- Write a file at path `k`: replaces any existing file there. -/
def aset {β : Type} (k : String) (v : β) (l : List (String × β)) : List (String × β) :=
  (k, v) :: aerase k l

/-- `Path.mkdir(exist_ok=True)` under `temp_path`. -/
def mkdirT (d : String) (temp : List String) : List String :=
  if d ∈ temp then temp else d :: temp

/-- `shutil.rmtree` of a directory under `temp_path`. -/
def rmtreeT (d : String) (temp : List String) : List String :=
  temp.filter (fun x => decide (x ≠ d))

/-- Insert a row into a list kept sorted by `timestamp` descending. -/
def insertTsDesc (b : BackupRow) : List BackupRow → List BackupRow
  | [] => [b]
  | c :: rest => if b.timestamp ≤ c.timestamp then c :: insertTsDesc b rest
                 else b :: c :: rest

/-- `ORDER BY timestamp DESC` of the sqlite query in `list_backups`. -/
def sortTsDesc (l : List BackupRow) : List BackupRow :=
  l.foldr insertTsDesc []

/-- `TimeCapsuleBackupSystem.list_backups(backup_type=None, limit=50)`:
optional type filter, order by timestamp descending, `LIMIT limit`. -/
def list_backups (db : List BackupRow) (backup_type : Option String := none)
    (limit : Nat := 50) : List BackupRow :=
  (sortTsDesc (match backup_type with
    | none => db
    | some t => db.filter (fun b => decide (b.backup_type = t)))).take limit

/-- `TimeCapsuleBackupSystem.get_backup_metadata`: linear scan of
`list_backups()` — note the *default* limit of 50 rows. -/
def get_backup_metadata (db : List BackupRow) (backup_id : String) : Option BackupRow :=
  (list_backups db).find? (fun b => decide (b.backup_id = backup_id))

/-- Stage of `create_backup` at which an injected I/O error raises:
copying into the staging tree, writing the tar archive, reading the archive
back for the checksum, or the sqlite metadata insert. -/
inductive CBStage
  | staging
  | archiving
  | checksumming
  | saving
deriving DecidableEq, Repr

/-- Error outcome of `create_backup`: the re-raised I/O error, or the
`ZeroDivisionError` from the success-path log line
`f"Compression ratio: {compressed_size/total_size:.2%}"` when
`total_size == 0`. -/
inductive CBErr
  | ioFailure (st : CBStage)
  | zeroDivisionInLog
deriving DecidableEq, Repr

/-- The backup id `f"backup_{timestamp_micro}_{backup_type}"`; the clock value
feeding the id and the row timestamp is the single abstract instant `now`. -/
def backupId (now : Nat) (backup_type : String) : String :=
  "backup_" ++ toString now ++ "_" ++ backup_type

/-- Name of the staging directory `temp_path / backup_id`. -/
def stagingDir (now : Nat) (backup_type : String) : String :=
  "temp/" ++ backupId now backup_type

/-- Size of the compressed archive on disk (`os.path.getsize`), abstracted as
the total size of the archived bytes. -/
def archiveSize : ArchiveFile → Nat
  | .valid tree => (tree.map (fun p => p.2.length)).sum
  | .corrupt n => n

/-- `TimeCapsuleBackupSystem.create_backup(backup_type, ...)`.

Control flow of the source, with an injected I/O failure oracle `failAt`:
1. make the staging directory and copy the configured data roots into it,
   summing raw sizes (`_collect_backup_files` + copy loop);
2. write the compressed archive `backups_path/{backup_id}.tar.gz`
   (`_create_compressed_archive`) — a failure mid-write leaves a partial
   file on disk;
3. compute the archive checksum (`_calculate_file_checksum`);
4. insert the metadata row with `verification_status="verified"`
   (`_save_backup_metadata`);
5. remove the staging directory, log — the compression-ratio log line
   divides by `total_size` and raises `ZeroDivisionError` when it is 0.
The `except` handler removes the staging directory if it exists and
re-raises.  Returns the raised error or the backup id, plus the final
state. -/
def create_backup (s : SysState) (now : Nat) (backup_type : String)
    (failAt : Option CBStage) : Except CBErr String × SysState :=
  let backup_id := backupId now backup_type
  let sdir := stagingDir now backup_type
  let temp1 := mkdirT sdir s.temp
  if failAt = some CBStage.staging then
    -- I/O error while copying into staging; handler removes staging, re-raises
    (Except.error (CBErr.ioFailure CBStage.staging), { s with temp := rmtreeT sdir temp1 })
  else
    let files := s.dataRoots
    let manifest := files.map (fun p => p.1)
    let total_size := (files.map (fun p => p.2.length)).sum
    if failAt = some CBStage.archiving then
      -- tar write fails midway: a partial archive file is left on disk,
      -- the handler removes only the staging directory
      (Except.error (CBErr.ioFailure CBStage.archiving),
       { s with archives := aset backup_id (ArchiveFile.corrupt 0) s.archives,
                temp := rmtreeT sdir temp1 })
    else
      let archive := ArchiveFile.valid files
      let s1 := { s with archives := aset backup_id archive s.archives }
      if failAt = some CBStage.checksumming then
        -- checksum read fails: the fully written archive stays on disk
        (Except.error (CBErr.ioFailure CBStage.checksumming),
         { s1 with temp := rmtreeT sdir temp1 })
      else
        let cksum := _calculate_file_checksum archive
        if failAt = some CBStage.saving then
          (Except.error (CBErr.ioFailure CBStage.saving),
           { s1 with temp := rmtreeT sdir temp1 })
        else
          let row : BackupRow :=
            { backup_id := backup_id
              timestamp := now
              backup_type := backup_type
              files_included := manifest
              total_size_bytes := total_size
              compressed_size_bytes := archiveSize archive
              checksum := cksum
              verification_status := "verified"
              retention_days := 30 }
          let s2 := { s1 with backups := row :: s1.backups, temp := rmtreeT sdir temp1 }
          if total_size = 0 then
            -- row already persisted; the success log divides by total_size
            (Except.error CBErr.zeroDivisionInLog, s2)
          else
            (Except.ok backup_id, s2)

/-- `TimeCapsuleBackupSystem.verify_backup`: fetch the metadata row (via the
limit-50 `get_backup_metadata`), check the archive file exists, recompute the
checksum, then test-extract into `temp_path/verify_{id}` and remove the
scratch directory on success (the `except` branch returns `False` without
removing it). -/
def verify_backup (s : SysState) (backup_id : String) : Bool × SysState :=
  match get_backup_metadata s.backups backup_id with
  | none => (false, s)
  | some md =>
    match alookup backup_id s.archives with
    | none => (false, s)
    | some content =>
      if _calculate_file_checksum content = md.checksum then
        let scratch := "temp/verify_" ++ backup_id
        match _extract_compressed_archive content with
        | some _ => (true, { s with temp := rmtreeT scratch (mkdirT scratch s.temp) })
        | none => (false, { s with temp := mkdirT scratch s.temp })
      else
        (false, s)

/-- `TimeCapsuleBackupSystem.delete_backup`: unlink the archive if present,
`DELETE FROM backups` and `DELETE FROM restore_points` for the id, and return
`True` — the `except` branch returning `False` is reached only when an
I/O or database error is raised, never for a missing id. -/
def delete_backup (s : SysState) (backup_id : String) : Bool × SysState :=
  (true,
   { s with
     archives := aerase backup_id s.archives,
     backups := s.backups.filter (fun b => decide (b.backup_id ≠ backup_id)),
     restore_points := s.restore_points.filter (fun r => decide (r.backup_id ≠ backup_id)) })

/-- String containment `needle in hay` (Python substring test), on the
character lists: does `needle` occur contiguously inside `hay`? -/
def charsIn (needle : List Char) : List Char → Bool
  | [] => needle.isEmpty
  | c :: rest => needle.isPrefixOf (c :: rest) || charsIn needle rest

/-- Python's `needle in hay` for strings. -/
def strIn (needle hay : String) : Bool :=
  charsIn needle.data hay.data

/-- Python's `restore_scope.get(key, True)`: missing scope keys default to
`True`. -/
def scopeGet (scope : List (String × Bool)) (k : String) : Bool :=
  match alookup k scope with
  | some b => b
  | none => true

/-- The per-entry inclusion decision of `restore_from_backup` — the
`if/elif` chain over substring matches; each branch condition is a
conjunction, so a later keyword can still include a path whose earlier
keyword was disabled in the scope. -/
def should_restore (scope : List (String × Bool)) (file_path : String) : Bool :=
  if strIn "constitution" file_path && scopeGet scope "constitution" then true
  else if strIn "conversation" file_path && scopeGet scope "conversations" then true
  else if strIn "document" file_path && scopeGet scope "documents" then true
  else if strIn "config" file_path && scopeGet scope "configuration" then true
  else false

/-- Error outcome of `restore_from_backup`. -/
inductive RErr
  /-- The backup id is not in `get_backup_metadata`'s view: the code raises
  `ValueError(f"Backup {backup_id} not found")`, and while handling it the
  `except` block evaluates `restore_point.status = "failed"` before
  `restore_point` was ever assigned, so the surfaced exception is an
  `UnboundLocalError` chained to the `ValueError`. -/
  | valueErrorThenUnboundLocal
  /-- `tarfile.open` / `extractall` raised on a missing or corrupt archive;
  the restore row is marked failed and the error re-raised. -/
  | extractionFailure
deriving DecidableEq, Repr

/-- Accumulator of the per-manifest-entry restore loop. -/
structure RLoop where
  dataRoots : List (String × FileBytes)
  writes : List RWrite
  restored : Nat
deriving DecidableEq, Repr

/-- One iteration of the restore loop: decide inclusion via
`should_restore`, copy the file from the extracted tree if present, then
increment `restored_files` and persist
`progress = restored_files / total_files * 100`. -/
def restoreStep (scope : List (String × Bool)) (tree : List (String × FileBytes))
    (total : Nat) (acc : RLoop) (file_path : String) : RLoop :=
  let roots :=
    if should_restore scope file_path then
      match alookup file_path tree with
      | some c => aset file_path c acc.dataRoots
      | none => acc.dataRoots
    else acc.dataRoots
  let restored := acc.restored + 1
  let progress : ℚ := ((restored : ℚ) / (total : ℚ)) * 100
  { dataRoots := roots
    writes := acc.writes ++ [⟨"in_progress", progress⟩]
    restored := restored }

/-- The restore id `f"restore_{int(datetime.now().timestamp())}"`. -/
def restoreId (now : Nat) : String := "restore_" ++ toString now

/-- `TimeCapsuleBackupSystem.restore_from_backup(backup_id, restore_scope)`.

Control flow of the source:
1. look the backup up via `get_backup_metadata` — on `None` it raises
   `ValueError`, whose handler itself crashes with `UnboundLocalError`
   (see `RErr.valueErrorThenUnboundLocal`) before any catalog write;
2. persist the restore row with status `in_progress`, progress 0;
3. extract the archive into `temp_path/{restore_id}` — a missing or corrupt
   archive raises, the handler marks the row failed and re-raises (the
   extraction directory is not removed on this path);
4. walk the *recorded manifest* (`files_included`); per entry decide
   inclusion with the scope predicate, copy the file back, and persist
   progress `restored/total*100` after every entry;
5. mark the row completed with progress 100 and remove the extraction
   directory.

Returns (result, final state, the ordered list of persisted restore-row
writes an external poller could observe). -/
def restore_from_backup (s : SysState) (now : Nat) (backup_id : String)
    (restore_scope : List (String × Bool)) :
    Except RErr String × SysState × List RWrite :=
  let restore_id := restoreId now
  match get_backup_metadata s.backups backup_id with
  | none => (Except.error RErr.valueErrorThenUnboundLocal, s, [])
  | some md =>
    let w0 : RWrite := ⟨"in_progress", 0⟩
    let rdir := "temp/" ++ restore_id
    let failedRow (msg : String) : RestoreRow :=
      { restore_id := restore_id, backup_id := backup_id, status := "failed"
        progress_percent := 0, error_message := msg }
    match (alookup backup_id s.archives).bind _extract_compressed_archive with
    | none =>
      (Except.error RErr.extractionFailure,
       { s with restore_points := failedRow "extraction failed" :: s.restore_points,
                temp := mkdirT rdir s.temp },
       ([w0, ⟨"failed", 0⟩] : List RWrite))
    | some tree =>
      let total := md.files_included.length
      let init : RLoop := { dataRoots := s.dataRoots, writes := [w0], restored := 0 }
      let fin := md.files_included.foldl (restoreStep restore_scope tree total) init
      let doneRow : RestoreRow :=
        { restore_id := restore_id, backup_id := backup_id, status := "completed"
          progress_percent := 100, error_message := "" }
      (Except.ok restore_id,
       { s with dataRoots := fin.dataRoots,
                restore_points := doneRow :: s.restore_points,
                temp := rmtreeT rdir (mkdirT rdir s.temp) },
       fin.writes ++ [⟨"completed", 100⟩])

/-- Python's `max(suitable_backups, key=lambda b: b.timestamp)`: scans left to
right, replacing the current best only on a strictly greater key, so the
first maximal element wins. -/
def maxByTs (best : BackupRow) : List BackupRow → BackupRow
  | [] => best
  | b :: rest => maxByTs (if best.timestamp < b.timestamp then b else best) rest

/-- `RecoveryManager._find_best_backup_for_timestamp`: filter
`self.backup_system.list_backups()` (default limit 50!) down to verified
backups not newer than the target, and return the most recent one;
`create_recovery_plan` raises `ValueError("No suitable backup found ...")`
on `none`. -/
def _find_best_backup_for_timestamp (db : List BackupRow) (target : Nat) :
    Option BackupRow :=
  let backups := list_backups db
  let suitable := backups.filter
    (fun b => decide (b.timestamp ≤ target) && decide (b.verification_status = "verified"))
  match suitable with
  | [] => none
  | b :: rest => some (maxByTs b rest)

/-- `RecoveryManager._assess_recovery_risk(target_timestamp, components)`.
`now` and `target` are day-granularity instants, so `time_diff.days` is
`now - target` (over `Int`: a target in the future gives negative days). -/
def _assess_recovery_risk (now target : Int) (components : List String) : String :=
  let days := now - target
  let risk_score : Nat :=
    (if 30 < days then 2 else if 7 < days then 1 else 0) +
    (if "constitution" ∈ components then 2 else 0) +
    (if "configuration" ∈ components then 1 else 0)
  if 4 ≤ risk_score then "high"
  else if 2 ≤ risk_score then "medium"
  else "low"

/-- `TimeCapsuleBackupSystem._cleanup_old_backups`: walk
`self.list_backups()` (default limit 50) once and `delete_backup` every row
whose `(now - timestamp).days` exceeds its own `retention_days`. -/
def _cleanup_old_backups (s : SysState) (now : Nat) : SysState :=
  (list_backups s.backups).foldl
    (fun st b =>
      if b.retention_days < now - b.timestamp then (delete_backup st b.backup_id).2
      else st)
    s

/-! ## Spec-side definitions and concrete example states -/

/-- The claim's risk score, written from its words: the time bonuses are the
two tiers of a single age-gap factor (+2 for a gap above 30 days, else +1 for
a gap above 7 days), added to +2 for the high-sensitivity "constitution"
domain and +1 for "configuration". -/
def specRiskScore (now target : Int) (components : List String) : Nat :=
  (if 30 < now - target then 2
   else if 7 < now - target then 1
   else 0) +
  (if "constitution" ∈ components then 2 else 0) +
  (if "configuration" ∈ components then 1 else 0)

/-- The claim's mapping of totals to levels: total < 2 is "low", 2–3 is
"medium", ≥ 4 is "high". -/
def specRiskLevel (total : Nat) : String :=
  if total < 2 then "low"
  else if 2 ≤ total ∧ total ≤ 3 then "medium"
  else "high"

/-- A state with an empty catalog: no backup id exists in it. -/
def emptyState : SysState :=
  { backups := [], restore_points := [], archives := [], dataRoots := [], temp := [] }

/-- A catalogued backup row used by the concrete states below. -/
def exRow : BackupRow :=
  { backup_id := backupId 1 "full"
    timestamp := 1
    backup_type := "full"
    files_included := ["documents/a.txt"]
    total_size_bytes := 1
    compressed_size_bytes := 1
    checksum := ArchiveFile.valid [("documents/a.txt", [7])]
    verification_status := "verified"
    retention_days := 30 }

/-- A one-backup state with live files on disk. -/
def exState : SysState :=
  { backups := [exRow]
    restore_points := []
    archives := [(backupId 1 "full", ArchiveFile.valid [("documents/a.txt", [7])])]
    dataRoots := [("documents/a.txt", [7])]
    temp := [] }

/-- Row `i` of the 51-backup catalog: id `"b" ++ i`, timestamp `i`, verified,
with its archive tree `[("documents/a.txt", [7])]`. -/
def c10Row (i : Nat) : BackupRow :=
  { backup_id := "b" ++ toString i
    timestamp := i
    backup_type := "full"
    files_included := ["documents/a.txt"]
    total_size_bytes := 1
    compressed_size_bytes := 1
    checksum := ArchiveFile.valid [("documents/a.txt", [7])]
    verification_status := "verified"
    retention_days := 30 }

/-- A catalog of 51 backups with timestamps 0..50. -/
def c10Catalog : List BackupRow := (List.range 51).map c10Row

/-- The 51-backup state: the oldest backup `b0` still has its intact archive
on disk. -/
def c10State : SysState :=
  { backups := c10Catalog
    restore_points := []
    archives := [("b0", ArchiveFile.valid [("documents/a.txt", [7])])]
    dataRoots := [("documents/a.txt", [7])]
    temp := [] }

/-- The oldest backup of the prune counterexample: age far beyond its
30-day retention window. -/
def c6Old : BackupRow :=
  { backup_id := "old0"
    timestamp := 0
    backup_type := "full"
    files_included := ["documents/a.txt"]
    total_size_bytes := 1
    compressed_size_bytes := 1
    checksum := ArchiveFile.valid [("documents/a.txt", [7])]
    verification_status := "verified"
    retention_days := 30 }

/-- Fresh backup `i` of the prune counterexample (timestamp `1000 + i`). -/
def c6Fresh (i : Nat) : BackupRow :=
  { c6Old with backup_id := "f" ++ toString i, timestamp := 1000 + i }

/-- 51 backups: one long-expired and 50 fresh ones. -/
def c6State : SysState :=
  { backups := c6Old :: (List.range 50).map c6Fresh
    restore_points := []
    archives := [("old0", ArchiveFile.valid [("documents/a.txt", [7])])]
    dataRoots := []
    temp := [] }

/-- Empty catalog with one nonempty live file to back up. -/
def c1Start : SysState :=
  { backups := []
    restore_points := []
    archives := []
    dataRoots := [("documents/a.txt", [7])]
    temp := [] }

/-- The catalog row `create_backup` persists at clock `now` for backup type
`bt` with staged live tree `roots`. -/
def createdRow (now : Nat) (bt : String) (roots : List (String × FileBytes)) : BackupRow :=
  { backup_id := backupId now bt
    timestamp := now
    backup_type := bt
    files_included := roots.map (fun p => p.1)
    total_size_bytes := (roots.map (fun p => p.2.length)).sum
    compressed_size_bytes := archiveSize (ArchiveFile.valid roots)
    checksum := _calculate_file_checksum (ArchiveFile.valid roots)
    verification_status := "verified"
    retention_days := 30 }

/-- State after one successful backup at time 1 on the one-file system. -/
def c2Base : SysState := (create_backup c1Start 1 "full" none).2

/-- State after 50 further successful backups at times 2..51; none of them
modifies or deletes the first backup's archive file. -/
def c2After : SysState :=
  (List.range 50).foldl (fun st i => (create_backup st (i + 2) "full" none).2) c2Base

/-- Backup row of the C7 counterexample: its manifest records one
conversation file. -/
def c7Row : BackupRow :=
  { backup_id := "backup_9_full"
    timestamp := 9
    backup_type := "full"
    files_included := ["conversations/chat.json"]
    total_size_bytes := 1
    compressed_size_bytes := 1
    checksum := ArchiveFile.valid [("conversations/chat.json", [1])]
    verification_status := "verified"
    retention_days := 30 }

/-- State of the C7 counterexample: the archive holds `[1]` for the
conversation file while the live file on disk holds `[0]`. -/
def c7State : SysState :=
  { backups := [c7Row]
    restore_points := []
    archives := [("backup_9_full", ArchiveFile.valid [("conversations/chat.json", [1])])]
    dataRoots := [("conversations/chat.json", [0])]
    temp := [] }

/-- The claim's scenario scope: documents enabled, constitution disabled. -/
def c7Scope : List (String × Bool) := [("documents", true), ("constitution", false)]

/-- The progress values a poller observes over a successful restore of an
`n`-entry manifest: 0 at the initial save, `(i+1)/n*100` after file `i`,
and 100 at the final completed write. -/
def progsOf (n : Nat) : List ℚ :=
  0 :: ((List.range n).map
    (fun (i : Nat) => (((i + 1 : Nat) : ℚ) / ((n : Nat) : ℚ)) * 100)) ++ [100]

/-! ## Supporting lemmas -/

lemma alookup_aerase {β : Type} (k : String) (l : List (String × β)) :
    alookup k (aerase k l) = none := by
  induction l with
  | nil => rfl
  | cons p rest ih =>
    unfold aerase at ih ⊢
    simp only [decide_not] at ih ⊢
    by_cases h : p.1 = k
    · simp [List.filter_cons, h, ih]
    · simp [List.filter_cons, h, alookup, ih]

lemma alookup_aerase_other {β : Type} (k k' : String) (h : k' ≠ k)
    (l : List (String × β)) : alookup k' (aerase k l) = alookup k' l := by
  have hkk' : ¬ (k = k') := fun hh => h hh.symm
  induction l with
  | nil => rfl
  | cons p rest ih =>
    unfold aerase at ih ⊢
    simp only [decide_not] at ih ⊢
    by_cases hpk : p.1 = k
    · have hp' : ¬ (p.1 = k') := by rw [hpk]; exact hkk'
      simp [List.filter_cons, hpk, alookup, hp', ih, hkk']
    · by_cases hpk' : p.1 = k'
      · simp [List.filter_cons, hpk, alookup, hpk', h]
      · simp [List.filter_cons, hpk, alookup, hpk', ih]

lemma alookup_aset_same {β : Type} (k : String) (v : β) (l : List (String × β)) :
    alookup k (aset k v l) = some v := by
  simp [aset, alookup]

lemma alookup_aset_other {β : Type} (k k' : String) (v : β) (l : List (String × β))
    (h : k' ≠ k) : alookup k' (aset k v l) = alookup k' l := by
  have hk : ¬ (k = k') := fun hh => h hh.symm
  simp [aset, alookup, hk, alookup_aerase_other k k' h l]

/-! ## C5 — recovery risk scoring -/

/-- C5: for every target timestamp and component list,
`_assess_recovery_risk` returns exactly the level described by the claim's
additive score — age-gap tier (+2 above 30 days, else +1 above 7 days), +2
for "constitution", +1 for "configuration" — mapped by total < 2 ↦ "low",
2–3 ↦ "medium", ≥ 4 ↦ "high". -/
theorem claim_C5_risk_scoring (now target : Int) (components : List String) :
    _assess_recovery_risk now target components =
      specRiskLevel (specRiskScore now target components) := by
  unfold _assess_recovery_risk specRiskLevel specRiskScore
  by_cases hcn : "constitution" ∈ components <;>
  by_cases hcf : "configuration" ∈ components <;>
  by_cases h30 : 30 < now - target <;>
  by_cases h7 : 7 < now - target <;>
    first
      | exact absurd (by omega) h7
      | simp [hcn, hcf, h30, h7]

/-! ## C3 — delete_backup -/

/-- C3 counterexample: `delete_backup` on an id that names no existing backup
(the catalog is empty) returns `true`, not `false` as the claim states — the
`False` return is reached only when an exception is raised. -/
theorem claim_C3_counterexample :
    emptyState.backups = [] ∧
    (delete_backup emptyState "backup_1_full").1 = true := by
  constructor
  · rfl
  · rfl

/-- C3 (amended): `delete_backup(id)` never raises and returns `true` whether
or not the id names an existing backup (`false` is returned only when an
I/O or database error is raised); for an existing id it removes the archive
file, the backups row and all dependent restore rows, and it leaves rows for
other ids untouched. -/
theorem claim_C3_delete_idempotent (s : SysState) (bid : String) :
    (delete_backup s bid).1 = true ∧
    (∀ b ∈ (delete_backup s bid).2.backups, b.backup_id ≠ bid) ∧
    (∀ b ∈ s.backups, b.backup_id ≠ bid → b ∈ (delete_backup s bid).2.backups) ∧
    (∀ r ∈ (delete_backup s bid).2.restore_points, r.backup_id ≠ bid) ∧
    (∀ r ∈ s.restore_points, r.backup_id ≠ bid → r ∈ (delete_backup s bid).2.restore_points) ∧
    alookup bid (delete_backup s bid).2.archives = none := by
  refine ⟨rfl, ?_, ?_, ?_, ?_, ?_⟩
  · intro b hb
    simp [delete_backup, List.mem_filter] at hb
    exact hb.2
  · intro b hb hne
    simp [delete_backup, List.mem_filter]
    exact ⟨hb, hne⟩
  · intro r hr
    simp [delete_backup, List.mem_filter] at hr
    exact hr.2
  · intro r hr hne
    simp [delete_backup, List.mem_filter]
    exact ⟨hr, hne⟩
  · exact alookup_aerase bid s.archives

/-- Witness for the amended C3 theorem at a concrete input. -/
theorem claim_C3_delete_idempotent_witness :
    (delete_backup emptyState "b1").1 = true ∧
    alookup "b1" (delete_backup emptyState "b1").2.archives = none :=
  ⟨(claim_C3_delete_idempotent emptyState "b1").1,
   (claim_C3_delete_idempotent emptyState "b1").2.2.2.2.2⟩

/-! ## C9 — restore on an unknown backup id -/

/-- C9: calling `restore_from_backup` with an id that names no catalogued
backup performs no catalog write and no file modification — the state is
returned untouched and the persisted-write trace is empty — but the raised
exception is not the `NotFound` `ValueError`: the `except` handler evaluates
`restore_point.status = "failed"` before `restore_point` was ever assigned,
so the surfaced exception is an `UnboundLocalError` chained to the
`ValueError` (see `RErr.valueErrorThenUnboundLocal`). -/
theorem claim_C9_restore_unknown_id :
    get_backup_metadata exState.backups "backup_2_full" = none ∧
    restore_from_backup exState 5 "backup_2_full" [] =
      (Except.error RErr.valueErrorThenUnboundLocal, exState, []) := by
  constructor
  · rfl
  · rfl

/-! ## C10 — get_backup_metadata is blind beyond the 50 most recent rows -/

/-- C10: `get_backup_metadata` searches only `list_backups()`'s default 50
most recent rows.  In the 51-backup catalog the row `b0` exists and its
archive is intact, yet `b0` is not among the 50 ids `list_backups` returns,
`get_backup_metadata` returns `none`, `verify_backup` returns `false`, and
`restore_from_backup` takes its backup-not-found branch (raising, persisting
no restore row and touching no file). -/
theorem claim_C10_metadata_limit_blindness :
    c10Row 0 ∈ c10State.backups ∧
    (c10Row 0).backup_id = "b0" ∧
    alookup "b0" c10State.archives =
      some (ArchiveFile.valid [("documents/a.txt", [7])]) ∧
    "b0" ∉ (list_backups c10State.backups).map (fun b => b.backup_id) ∧
    get_backup_metadata c10State.backups "b0" = none ∧
    (verify_backup c10State "b0").1 = false ∧
    restore_from_backup c10State 7 "b0" [] =
      (Except.error RErr.valueErrorThenUnboundLocal, c10State, []) := by
  refine ⟨by decide, rfl, rfl, by decide, by decide, by decide, ?_⟩
  rfl

/-! ## C4 — best backup for a target timestamp -/

lemma maxByTs_mem (best : BackupRow) (l : List BackupRow) :
    maxByTs best l ∈ best :: l := by
  induction l generalizing best with
  | nil => simp [maxByTs]
  | cons b rest ih =>
    have h := ih (if best.timestamp < b.timestamp then b else best)
    simp only [maxByTs]
    rcases List.mem_cons.1 h with h1 | h1
    · by_cases hb : best.timestamp < b.timestamp
      · rw [if_pos hb] at h1 ⊢
        rw [h1]
        simp
      · rw [if_neg hb] at h1 ⊢
        rw [h1]
        simp
    · by_cases hb : best.timestamp < b.timestamp
      · rw [if_pos hb] at h1 ⊢
        simp [List.mem_cons]
        tauto
      · rw [if_neg hb] at h1 ⊢
        simp [List.mem_cons]
        tauto

lemma maxByTs_ge_base (best : BackupRow) (l : List BackupRow) :
    best.timestamp ≤ (maxByTs best l).timestamp := by
  induction l generalizing best with
  | nil => simp [maxByTs]
  | cons b rest ih =>
    simp only [maxByTs]
    by_cases hb : best.timestamp < b.timestamp
    · rw [if_pos hb]
      exact le_trans (le_of_lt hb) (ih b)
    · rw [if_neg hb]
      exact ih best

lemma maxByTs_ge_mem (best c : BackupRow) (l : List BackupRow) (hc : c ∈ l) :
    c.timestamp ≤ (maxByTs best l).timestamp := by
  induction l generalizing best with
  | nil => cases hc
  | cons b rest ih =>
    simp only [maxByTs]
    rcases List.mem_cons.1 hc with rfl | h2
    · by_cases hb : best.timestamp < c.timestamp
      · rw [if_pos hb]
        exact maxByTs_ge_base c rest
      · rw [if_neg hb]
        exact le_trans (le_of_not_lt hb) (maxByTs_ge_base best rest)
    · by_cases hb : best.timestamp < b.timestamp
      · rw [if_pos hb]
        exact ih b h2
      · rw [if_neg hb]
        exact ih best h2

lemma find_best_none (db : List BackupRow) (target : Nat)
    (h : (list_backups db).filter
      (fun b => decide (b.timestamp ≤ target) && decide (b.verification_status = "verified")) = []) :
    _find_best_backup_for_timestamp db target = none := by
  unfold _find_best_backup_for_timestamp
  show (match (list_backups db).filter
      (fun b => decide (b.timestamp ≤ target) && decide (b.verification_status = "verified")) with
    | [] => none
    | b :: rest => some (maxByTs b rest)) = none
  rw [h]

lemma find_best_cons (db : List BackupRow) (target : Nat) (hd : BackupRow) (tl : List BackupRow)
    (h : (list_backups db).filter
      (fun b => decide (b.timestamp ≤ target) && decide (b.verification_status = "verified")) = hd :: tl) :
    _find_best_backup_for_timestamp db target = some (maxByTs hd tl) := by
  unfold _find_best_backup_for_timestamp
  show (match (list_backups db).filter
      (fun b => decide (b.timestamp ≤ target) && decide (b.verification_status = "verified")) with
    | [] => none
    | b :: rest => some (maxByTs b rest)) = some (maxByTs hd tl)
  rw [h]

/-- C4 counterexample: in the 51-backup catalog, the verified backup `b0`
has `created_at ≤ target` for `target = 0`, yet
`_find_best_backup_for_timestamp` reports *no suitable backup* (so
`create_recovery_plan` would raise), because it looks only at
`list_backups()`'s default 50 most recent rows and all of those are newer
than the target. -/
theorem claim_C4_counterexample :
    c10Row 0 ∈ c10Catalog ∧
    (c10Row 0).verification_status = "verified" ∧
    (c10Row 0).timestamp ≤ 0 ∧
    _find_best_backup_for_timestamp c10Catalog 0 = none := by
  refine ⟨by decide, rfl, by decide, by decide⟩

/-- C4 (amended): among the **50 most recent catalogued backups** (the
default `list_backups` limit) — not among all catalogued backups —
`_find_best_backup_for_timestamp` selects the backup with the greatest
`created_at` among those with `verification_status = "verified"` and
`created_at ≤ target`, and reports no suitable backup (`ValueError` in
`create_recovery_plan`) exactly when that 50-row window contains none;
backups that are unverified or newer than the target are never selected. -/
theorem claim_C4_best_backup (db : List BackupRow) (target : Nat) :
    (_find_best_backup_for_timestamp db target = none ↔
      ∀ b ∈ list_backups db, ¬(b.timestamp ≤ target ∧ b.verification_status = "verified")) ∧
    (∀ b, _find_best_backup_for_timestamp db target = some b →
      b ∈ list_backups db ∧ b.timestamp ≤ target ∧ b.verification_status = "verified" ∧
      ∀ c ∈ list_backups db, c.timestamp ≤ target → c.verification_status = "verified" →
        c.timestamp ≤ b.timestamp) := by
  cases hS : (list_backups db).filter
      (fun b => decide (b.timestamp ≤ target) && decide (b.verification_status = "verified")) with
  | nil =>
    rw [find_best_none db target hS]
    constructor
    · constructor
      · intro _ b hb hcontra
        have hmem : b ∈ (list_backups db).filter
            (fun b => decide (b.timestamp ≤ target) && decide (b.verification_status = "verified")) := by
          rw [List.mem_filter]
          exact ⟨hb, by simp [hcontra.1, hcontra.2]⟩
        rw [hS] at hmem
        cases hmem
      · intro _
        rfl
    · intro b hb
      cases hb
  | cons hd tl =>
    rw [find_best_cons db target hd tl hS]
    constructor
    · constructor
      · intro h
        cases h
      · intro hall
        have hmem : hd ∈ (list_backups db).filter
            (fun b => decide (b.timestamp ≤ target) && decide (b.verification_status = "verified")) := by
          rw [hS]
          exact List.mem_cons_self _ _
        rw [List.mem_filter] at hmem
        simp only [Bool.and_eq_true, decide_eq_true_eq] at hmem
        exact absurd ⟨hmem.2.1, hmem.2.2⟩ (hall hd hmem.1)
    · intro b hb
      have hbeq : maxByTs hd tl = b := by
        injection hb
      have hmem : b ∈ hd :: tl := hbeq ▸ maxByTs_mem hd tl
      have hmemS : b ∈ (list_backups db).filter
          (fun b => decide (b.timestamp ≤ target) && decide (b.verification_status = "verified")) := by
        rw [hS]
        exact hmem
      rw [List.mem_filter] at hmemS
      simp only [Bool.and_eq_true, decide_eq_true_eq] at hmemS
      refine ⟨hmemS.1, hmemS.2.1, hmemS.2.2, ?_⟩
      intro c hc hct hcv
      have hcS : c ∈ (list_backups db).filter
          (fun b => decide (b.timestamp ≤ target) && decide (b.verification_status = "verified")) := by
        rw [List.mem_filter]
        exact ⟨hc, by simp [hct, hcv]⟩
      rw [hS] at hcS
      rcases List.mem_cons.1 hcS with rfl | hctl
      · exact hbeq ▸ maxByTs_ge_base c tl
      · exact hbeq ▸ maxByTs_ge_mem hd c tl hctl

/-- Witness for the amended C4 theorem: on a one-row catalog with a verified
backup at timestamp 1 and target 5, the selection facts hold for that row. -/
theorem claim_C4_best_backup_witness :
    exRow ∈ list_backups [exRow] ∧ exRow.timestamp ≤ 5 ∧
    exRow.verification_status = "verified" ∧
    ∀ c ∈ list_backups [exRow], c.timestamp ≤ 5 → c.verification_status = "verified" →
      c.timestamp ≤ exRow.timestamp :=
  (claim_C4_best_backup [exRow] 5).2 exRow (by decide)

/-! ## C6 — retention pruning -/

lemma mem_insertTsDesc {a b : BackupRow} {l : List BackupRow} :
    a ∈ insertTsDesc b l ↔ a = b ∨ a ∈ l := by
  induction l with
  | nil => simp [insertTsDesc]
  | cons c rest ih =>
    simp only [insertTsDesc]
    by_cases h : b.timestamp ≤ c.timestamp
    · rw [if_pos h]
      simp only [List.mem_cons, ih]
      tauto
    · rw [if_neg h]
      simp [List.mem_cons]

lemma mem_sortTsDesc {a : BackupRow} {l : List BackupRow} :
    a ∈ sortTsDesc l ↔ a ∈ l := by
  induction l with
  | nil => simp [sortTsDesc]
  | cons c rest ih =>
    show a ∈ insertTsDesc c (sortTsDesc rest) ↔ _
    rw [mem_insertTsDesc]
    simp [ih]

lemma mem_of_mem_list_backups {c : BackupRow} {db : List BackupRow}
    (h : c ∈ list_backups db) : c ∈ db := by
  unfold list_backups at h
  exact mem_sortTsDesc.1 (List.take_subset _ _ h)

lemma cleanup_foldl_backups (now : Nat) (bs : List BackupRow) (s : SysState) :
    (bs.foldl (fun st b =>
        if b.retention_days < now - b.timestamp then (delete_backup st b.backup_id).2
        else st) s).backups
    = s.backups.filter (fun r =>
        bs.all (fun b =>
          !decide (b.retention_days < now - b.timestamp) ||
          decide (r.backup_id ≠ b.backup_id))) := by
  induction bs generalizing s with
  | nil => simp
  | cons b rest ih =>
    rw [List.foldl_cons]
    by_cases hb : b.retention_days < now - b.timestamp
    · rw [if_pos hb, ih]
      show (s.backups.filter (fun b' => decide (b'.backup_id ≠ b.backup_id))).filter _ = _
      rw [List.filter_filter]
      apply List.filter_congr
      intro r _
      simp [hb, Bool.and_comm]
    · rw [if_neg hb, ih]
      apply List.filter_congr
      intro r _
      simp [hb]

/-- C6 counterexample: with 51 catalogued backups, the prune pass walks only
`list_backups()`'s default 50 most recent rows, so the long-expired oldest
backup (age 1000 days, retention 30) survives the pass — falsifying "every
backup whose age exceeds its retention_days is deleted on the next pass". -/
theorem claim_C6_counterexample :
    c6Old ∈ c6State.backups ∧
    c6Old.retention_days < 1000 - c6Old.timestamp ∧
    c6Old ∈ (_cleanup_old_backups c6State 1000).backups := by
  refine ⟨by decide, by decide, by decide⟩

/-- C6 (amended): assuming catalogued backup ids are unique (the `backup_id`
PRIMARY KEY), a prune pass deletes exactly those backups **among the 50 most
recent rows** (the default `list_backups` limit) whose age in days exceeds
their own `retention_days`: a catalogued backup survives the pass iff it is
not a member of that 50-row window with age exceeding retention.  In
particular no backup within its retention window is ever deleted, but an
expired backup older than the 50 most recent rows is not deleted either. -/
theorem claim_C6_prune_window (s : SysState) (now : Nat)
    (hnd : (s.backups.map (fun b => b.backup_id)).Nodup) :
    ∀ b ∈ s.backups,
      (b ∈ (_cleanup_old_backups s now).backups ↔
        ¬(b ∈ list_backups s.backups ∧ b.retention_days < now - b.timestamp)) := by
  intro b hb
  unfold _cleanup_old_backups
  rw [cleanup_foldl_backups, List.mem_filter]
  have hinj := List.inj_on_of_nodup_map hnd
  constructor
  · rintro ⟨-, hall⟩ hcontra
    obtain ⟨hbtop, hbexp⟩ := hcontra
    rw [List.all_eq_true] at hall
    have hthis := hall b hbtop
    simp [hbexp] at hthis
  · intro hnot
    refine ⟨hb, ?_⟩
    rw [List.all_eq_true]
    intro c hc
    by_cases hcexp : c.retention_days < now - c.timestamp
    · by_cases hid : b.backup_id = c.backup_id
      · have hceq : c = b :=
          hinj (mem_of_mem_list_backups hc) hb hid.symm
        exact absurd ⟨hceq ▸ hc, hceq ▸ hcexp⟩ hnot
      · simp [hid]
    · simp [hcexp]

/-- Witness for the amended C6 theorem: a one-backup catalog (unique ids),
where the fresh backup survives the pass. -/
theorem claim_C6_prune_window_witness :
    (exState.backups.map (fun b => b.backup_id)).Nodup ∧
    (exRow ∈ (_cleanup_old_backups exState 5).backups ↔
      ¬(exRow ∈ list_backups exState.backups ∧ exRow.retention_days < 5 - exRow.timestamp)) :=
  ⟨by decide, claim_C6_prune_window exState 5 (by decide) exRow (by decide)⟩

/-! ## C1 — create_backup failure atomicity -/

lemma not_mem_rmtreeT (d : String) (temp : List String) : d ∉ rmtreeT d temp := by
  intro h
  simp [rmtreeT, List.mem_filter] at h

/-- C1 counterexample: when the tar write raises mid-archive,
`create_backup` re-raises — but its `except` handler removes only the
staging directory, so the partial archive file is **left on disk**,
falsifying "the partial archive file is deleted". -/
theorem claim_C1_counterexample :
    (create_backup c1Start 3 "full" (some CBStage.archiving)).1 =
      Except.error (CBErr.ioFailure CBStage.archiving) ∧
    alookup (backupId 3 "full")
        (create_backup c1Start 3 "full" (some CBStage.archiving)).2.archives =
      some (ArchiveFile.corrupt 0) := by
  constructor
  · rfl
  · rfl

/-- C1 (amended): if `create_backup` raises on an I/O error during staging,
archiving or checksumming, then no catalog row for the new backup id is
persisted and the staging directory is removed — but the partial archive
file is *not* deleted (only the staging directory is cleaned up, see the
counterexample).  Moreover, on every run (any failure stage or none), a new
row appears in the backups table only if the archive was fully written and
its checksum computed first: the persisted row's archive is on disk with
exactly the staged tree and the row stores that archive's digest. -/
theorem claim_C1_create_failure (s : SysState) (now : Nat) (bt : String)
    (failAt : Option CBStage) :
    (failAt = some CBStage.staging ∨ failAt = some CBStage.archiving ∨
        failAt = some CBStage.checksumming →
      (∃ e, (create_backup s now bt failAt).1 = Except.error e) ∧
      (create_backup s now bt failAt).2.backups = s.backups ∧
      stagingDir now bt ∉ (create_backup s now bt failAt).2.temp) ∧
    (∀ row ∈ (create_backup s now bt failAt).2.backups, row ∉ s.backups →
      row.backup_id = backupId now bt ∧
      alookup row.backup_id (create_backup s now bt failAt).2.archives =
        some (ArchiveFile.valid s.dataRoots) ∧
      row.checksum = _calculate_file_checksum (ArchiveFile.valid s.dataRoots)) := by
  rcases failAt with - | st
  · -- no injected failure: the row is persisted (also on the zero-size log path)
    constructor
    · rintro (h | h | h) <;> cases h
    · intro row hrow hnew
      by_cases h0 : ((s.dataRoots.map (fun p => p.2.length)).sum = 0)
      · simp [create_backup, h0] at hrow ⊢
        rcases hrow with rfl | hold
        · exact ⟨rfl, by simp [alookup_aset_same], rfl⟩
        · exact absurd hold hnew
      · simp [create_backup, h0] at hrow ⊢
        rcases hrow with rfl | hold
        · exact ⟨rfl, by simp [alookup_aset_same], rfl⟩
        · exact absurd hold hnew
  · cases st
    case staging =>
      refine ⟨fun _ => ⟨⟨CBErr.ioFailure CBStage.staging, rfl⟩, rfl, not_mem_rmtreeT _ _⟩, ?_⟩
      intro row hrow hnew
      exact absurd hrow hnew
    case archiving =>
      refine ⟨fun _ => ⟨⟨CBErr.ioFailure CBStage.archiving, rfl⟩, rfl, not_mem_rmtreeT _ _⟩, ?_⟩
      intro row hrow hnew
      exact absurd hrow hnew
    case checksumming =>
      refine ⟨fun _ => ⟨⟨CBErr.ioFailure CBStage.checksumming, rfl⟩, rfl, not_mem_rmtreeT _ _⟩, ?_⟩
      intro row hrow hnew
      exact absurd hrow hnew
    case saving =>
      constructor
      · rintro (h | h | h) <;> simp at h
      · intro row hrow hnew
        exact absurd hrow hnew

/-- Witness for the amended C1 theorem: a checksum-stage I/O failure on a
concrete one-file state leaves no catalog row and no staging directory. -/
theorem claim_C1_create_failure_witness :
    (∃ e, (create_backup c1Start 3 "full" (some CBStage.checksumming)).1 = Except.error e) ∧
    (create_backup c1Start 3 "full" (some CBStage.checksumming)).2.backups = c1Start.backups ∧
    stagingDir 3 "full" ∉ (create_backup c1Start 3 "full" (some CBStage.checksumming)).2.temp :=
  (claim_C1_create_failure c1Start 3 "full" (some CBStage.checksumming)).1
    (Or.inr (Or.inr rfl))

/-! ## C2 — verify_backup after create_backup -/

lemma insertTsDesc_head {r : BackupRow} {l : List BackupRow}
    (h : ∀ b ∈ l, b.timestamp < r.timestamp) : insertTsDesc r l = r :: l := by
  cases l with
  | nil => rfl
  | cons c rest =>
    have hc := h c (List.mem_cons_self _ _)
    simp only [insertTsDesc]
    rw [if_neg (by omega)]

lemma create_backup_state (s : SysState) (now : Nat) (bt : String) :
    (create_backup s now bt none).2 =
      { s with backups := createdRow now bt s.dataRoots :: s.backups
               archives := aset (backupId now bt) (ArchiveFile.valid s.dataRoots) s.archives
               temp := rmtreeT (stagingDir now bt) (mkdirT (stagingDir now bt) s.temp) } := by
  by_cases h0 : ((s.dataRoots.map (fun p => p.2.length)).sum = 0) <;>
    simp [create_backup, createdRow, h0]

lemma get_backup_metadata_cons_fresh (db : List BackupRow) (row : BackupRow)
    (hfresh : ∀ b ∈ db, b.timestamp < row.timestamp) :
    get_backup_metadata (row :: db) row.backup_id = some row := by
  have hsort : sortTsDesc (row :: db) = row :: sortTsDesc db :=
    insertTsDesc_head (fun b hb => hfresh b (mem_sortTsDesc.1 hb))
  show ((sortTsDesc (row :: db)).take 50).find?
      (fun b => decide (b.backup_id = row.backup_id)) = some row
  rw [hsort, show (50 : Nat) = 49 + 1 from rfl, List.take_succ_cons]
  exact List.find?_cons_of_pos _ (by simp)

lemma verify_backup_found (t : SysState) (bid : String) (md : BackupRow)
    (tree : List (String × FileBytes))
    (h1 : get_backup_metadata t.backups bid = some md)
    (h2 : alookup bid t.archives = some (ArchiveFile.valid tree))
    (h3 : md.checksum = ArchiveFile.valid tree) :
    (verify_backup t bid).1 = true := by
  unfold verify_backup
  rw [h1, h2]
  simp [_calculate_file_checksum, _extract_compressed_archive, h3]

lemma verify_backup_no_mutation (u : SysState) (bid : String) :
    (verify_backup u bid).2.backups = u.backups ∧
    (verify_backup u bid).2.archives = u.archives ∧
    (verify_backup u bid).2.restore_points = u.restore_points ∧
    (verify_backup u bid).2.dataRoots = u.dataRoots := by
  unfold verify_backup
  cases hm : get_backup_metadata u.backups bid with
  | none => simp
  | some md =>
    cases ha : alookup bid u.archives with
    | none => simp
    | some content =>
      by_cases hc : _calculate_file_checksum content = md.checksum
      · cases hx : _extract_compressed_archive content <;> simp [hc, hx]
      · simp [hc]

set_option maxRecDepth 100000 in
/-- C2 counterexample: after a successful `create_backup`, `verify_backup`
is true — but 50 further successful backups push the first row out of
`get_backup_metadata`'s default 50-row window, and `verify_backup` becomes
false even though the first archive file was never modified or deleted (its
bytes and its catalog row are both still present). -/
theorem claim_C2_counterexample :
    (create_backup c1Start 1 "full" none).1 = Except.ok (backupId 1 "full") ∧
    (verify_backup c2Base (backupId 1 "full")).1 = true ∧
    alookup (backupId 1 "full") c2After.archives =
      alookup (backupId 1 "full") c2Base.archives ∧
    (∃ r ∈ c2After.backups, r.backup_id = backupId 1 "full") ∧
    (verify_backup c2After (backupId 1 "full")).1 = false := by
  refine ⟨rfl, by decide, by decide, by decide, by decide⟩

/-- C2 (amended): for a backup id returned by a successful `create_backup`
(on a catalog whose rows are all older than the new backup), `verify_backup`
returns true immediately afterwards; it keeps returning true as long as the
archive file is not externally modified or deleted **and** the catalog row is
still returned (unchanged) by the limit-50 `get_backup_metadata` — merely
creating 50 newer backups already breaks it (see the counterexample).
`verify_backup` recomputes the checksum and test-extracts into a scratch
directory, and never mutates the archives, the backups table, the restore
rows, or the live files. -/
theorem claim_C2_verify_after_create (s : SysState) (now : Nat) (bt : String)
    (hfresh : ∀ b ∈ s.backups, b.timestamp < now)
    (_hok : (create_backup s now bt none).1 = Except.ok (backupId now bt)) :
    (verify_backup (create_backup s now bt none).2 (backupId now bt)).1 = true ∧
    (∀ t : SysState,
      get_backup_metadata t.backups (backupId now bt) =
        some (createdRow now bt s.dataRoots) →
      alookup (backupId now bt) t.archives = some (ArchiveFile.valid s.dataRoots) →
      (verify_backup t (backupId now bt)).1 = true) ∧
    (∀ (u : SysState) (bid : String),
      (verify_backup u bid).2.backups = u.backups ∧
      (verify_backup u bid).2.archives = u.archives ∧
      (verify_backup u bid).2.restore_points = u.restore_points ∧
      (verify_backup u bid).2.dataRoots = u.dataRoots) := by
  have hrow : get_backup_metadata (create_backup s now bt none).2.backups (backupId now bt) =
      some (createdRow now bt s.dataRoots) := by
    rw [create_backup_state]
    exact get_backup_metadata_cons_fresh s.backups (createdRow now bt s.dataRoots) hfresh
  refine ⟨?_, ?_, fun u bid => verify_backup_no_mutation u bid⟩
  · refine verify_backup_found _ _ (createdRow now bt s.dataRoots) s.dataRoots hrow ?_ rfl
    rw [create_backup_state]
    exact alookup_aset_same _ _ _
  · intro t h1 h2
    exact verify_backup_found t _ (createdRow now bt s.dataRoots) s.dataRoots h1 h2 rfl

/-- Witness for the amended C2 theorem: on the empty catalog the creation at
time 3 succeeds and verification holds right after. -/
theorem claim_C2_verify_after_create_witness :
    (∀ b ∈ c1Start.backups, b.timestamp < 3) ∧
    (create_backup c1Start 3 "full" none).1 = Except.ok (backupId 3 "full") ∧
    (verify_backup (create_backup c1Start 3 "full" none).2 (backupId 3 "full")).1 = true :=
  ⟨by decide, by rfl,
   (claim_C2_verify_after_create c1Start 3 "full" (by decide) (by rfl)).1⟩

/-! ## C7 — restore scope predicate -/

lemma restoreStep_foldl_unchanged (scope : List (String × Bool))
    (tree : List (String × FileBytes)) (total : Nat) (p : String)
    (fps : List String) (acc : RLoop)
    (h : ∀ fp ∈ fps, ¬(fp = p ∧ should_restore scope fp = true)) :
    alookup p (fps.foldl (restoreStep scope tree total) acc).dataRoots =
      alookup p acc.dataRoots := by
  induction fps generalizing acc with
  | nil => rfl
  | cons fp rest ih =>
    rw [List.foldl_cons, ih _ (fun q hq => h q (List.mem_cons_of_mem _ hq))]
    unfold restoreStep
    by_cases hs : should_restore scope fp
    · have hfp : fp ≠ p := fun he => h fp (List.mem_cons_self _ _) ⟨he, hs⟩
      cases ht : alookup fp tree with
      | none => simp [hs, ht]
      | some c =>
        simp only [hs, ht, if_true]
        exact alookup_aset_other fp p c _ (fun he => hfp he.symm)
    · simp [hs]

lemma restoreStep_foldl_written (scope : List (String × Bool))
    (tree : List (String × FileBytes)) (total : Nat) (fp : String) (c : FileBytes)
    (fps : List String) (acc : RLoop)
    (hs : should_restore scope fp = true) (ht : alookup fp tree = some c)
    (hpre : fp ∈ fps ∨ alookup fp acc.dataRoots = some c) :
    alookup fp (fps.foldl (restoreStep scope tree total) acc).dataRoots = some c := by
  induction fps generalizing acc with
  | nil =>
    rcases hpre with h | h
    · cases h
    · exact h
  | cons q rest ih =>
    rw [List.foldl_cons]
    apply ih
    rcases hpre with hmem | hacc
    · rcases List.mem_cons.1 hmem with rfl | hmem2
      · right
        unfold restoreStep
        simp [hs, ht, alookup_aset_same]
      · left
        exact hmem2
    · right
      unfold restoreStep
      by_cases hq : should_restore scope q
      · cases htq : alookup q tree with
        | none => simpa [hq, htq] using hacc
        | some cq =>
          by_cases hqf : q = fp
          · subst hqf
            rw [ht] at htq
            injection htq with hcq
            subst hcq
            simp [hq, ht, alookup_aset_same]
          · simp only [hq, htq, if_true]
            rw [alookup_aset_other q fp cq _ (fun he => hqf he.symm)]
            exact hacc
      · simpa [hq] using hacc

lemma restore_from_backup_success (s : SysState) (now : Nat) (bid : String)
    (scope : List (String × Bool)) (md : BackupRow) (tree : List (String × FileBytes))
    (hmd : get_backup_metadata s.backups bid = some md)
    (harch : alookup bid s.archives = some (ArchiveFile.valid tree)) :
    restore_from_backup s now bid scope =
      (Except.ok (restoreId now),
       { s with
         dataRoots := (md.files_included.foldl
            (restoreStep scope tree md.files_included.length)
            { dataRoots := s.dataRoots, writes := [⟨"in_progress", 0⟩], restored := 0 }).dataRoots
         restore_points :=
           { restore_id := restoreId now, backup_id := bid, status := "completed"
             progress_percent := 100, error_message := "" } :: s.restore_points
         temp := rmtreeT ("temp/" ++ restoreId now) (mkdirT ("temp/" ++ restoreId now) s.temp) },
       (md.files_included.foldl (restoreStep scope tree md.files_included.length)
            { dataRoots := s.dataRoots, writes := [⟨"in_progress", 0⟩], restored := 0 }).writes
         ++ [⟨"completed", 100⟩]) := by
  unfold restore_from_backup
  rw [hmd]
  simp [harch, _extract_compressed_archive]

/-- C7 counterexample: with scope `{"documents": true, "constitution":
false}`, the restore overwrites `conversations/chat.json` — an entry that
does *not* match the documents predicate — because the missing
"conversations" key defaults to enabled (`restore_scope.get(key, True)`).
This falsifies "only manifest entries matching the documents predicate are
written to disk". -/
theorem claim_C7_counterexample :
    strIn "document" "conversations/chat.json" = false ∧
    alookup "conversations/chat.json" c7State.dataRoots = some [0] ∧
    (restore_from_backup c7State 9 "backup_9_full" c7Scope).1 = Except.ok (restoreId 9) ∧
    alookup "conversations/chat.json"
        (restore_from_backup c7State 9 "backup_9_full" c7Scope).2.1.dataRoots = some [1] := by
  refine ⟨by decide, by decide, by rfl, by decide⟩

/-- C7 (amended): `restore_from_backup` iterates exactly the backup's
recorded manifest and copies back an entry iff some keyword branch of the
`if/elif` chain accepts it — the entry contains the branch keyword
("constitution"/"conversation"/"document"/"config") *and* the corresponding
scope key ("constitution"/"conversations"/"documents"/"configuration") is
enabled, where keys missing from the requested scope default to enabled.
With scope `{"documents": true, "constitution": false}` an entry matching
only the constitution keyword is left untouched, but conversation- and
config-matching entries are restored as well as documents-matching ones
(so more than the documents predicate is written). -/
theorem claim_C7_scope_predicate (s : SysState) (now : Nat) (bid : String)
    (scope : List (String × Bool)) (md : BackupRow) (tree : List (String × FileBytes))
    (hmd : get_backup_metadata s.backups bid = some md)
    (harch : alookup bid s.archives = some (ArchiveFile.valid tree)) :
    (∀ p : String, (∀ fp ∈ md.files_included, ¬(fp = p ∧ should_restore scope fp = true)) →
      alookup p (restore_from_backup s now bid scope).2.1.dataRoots =
        alookup p s.dataRoots) ∧
    (∀ fp ∈ md.files_included, should_restore scope fp = true →
      ∀ c, alookup fp tree = some c →
        alookup fp (restore_from_backup s now bid scope).2.1.dataRoots = some c) ∧
    (∀ fp : String, strIn "constitution" fp = true → strIn "conversation" fp = false →
      strIn "document" fp = false → strIn "config" fp = false →
      should_restore [("documents", true), ("constitution", false)] fp = false) := by
  rw [restore_from_backup_success s now bid scope md tree hmd harch]
  refine ⟨?_, ?_, ?_⟩
  · intro p hp
    exact restoreStep_foldl_unchanged scope tree md.files_included.length p
      md.files_included _ hp
  · intro fp hfp hs c hc
    exact restoreStep_foldl_written scope tree md.files_included.length fp c
      md.files_included _ hs hc (Or.inl hfp)
  · intro fp h1 h2 h3 h4
    simp [should_restore, h1, h2, h3, h4, scopeGet, alookup]

/-- Witness for the amended C7 theorem: on the concrete one-entry manifest
the untouched-path fact holds for a path outside the manifest. -/
theorem claim_C7_scope_predicate_witness :
    alookup "vault/other.txt"
        (restore_from_backup c7State 9 "backup_9_full" c7Scope).2.1.dataRoots =
      alookup "vault/other.txt" c7State.dataRoots :=
  (claim_C7_scope_predicate c7State 9 "backup_9_full" c7Scope c7Row
      [("conversations/chat.json", [1])] (by rfl) (by rfl)).1
    "vault/other.txt" (by decide)

/-! ## C8 — restore progress trace -/

lemma restoreStep_foldl_writes (scope : List (String × Bool))
    (tree : List (String × FileBytes)) (total : Nat)
    (fps : List String) (acc : RLoop) :
    (fps.foldl (restoreStep scope tree total) acc).writes =
      acc.writes ++ (List.range fps.length).map
        (fun (i : Nat) =>
          ⟨"in_progress", (((acc.restored + i + 1 : Nat) : ℚ) / (total : ℚ)) * 100⟩) ∧
    (fps.foldl (restoreStep scope tree total) acc).restored = acc.restored + fps.length := by
  induction fps generalizing acc with
  | nil => simp
  | cons fp rest ih =>
    rw [List.foldl_cons]
    obtain ⟨ihw, ihr⟩ := ih (restoreStep scope tree total acc fp)
    have hstep_w : (restoreStep scope tree total acc fp).writes
        = acc.writes ++
          [⟨"in_progress", (((acc.restored + 1 : Nat) : ℚ) / (total : ℚ)) * 100⟩] := rfl
    have hstep_r : (restoreStep scope tree total acc fp).restored = acc.restored + 1 := rfl
    constructor
    · rw [ihw, hstep_w, hstep_r, List.append_assoc, List.singleton_append,
          List.length_cons, List.range_succ_eq_map, List.map_cons, List.map_map]
      congr 1
      congr 1
      apply List.map_congr_left
      intro i _
      simp only [Function.comp_apply]
      have he : acc.restored + 1 + i + 1 = acc.restored + (i + 1) + 1 := by omega
      rw [he]
    · rw [ihr, hstep_r, List.length_cons]
      omega

lemma chain'_progsOf (n : Nat) : List.Chain' (· ≤ ·) (progsOf n) := by
  unfold progsOf
  rcases n with - | m
  · simp
  · rw [show (0 : ℚ) :: ((List.range (m + 1)).map
        (fun (i : Nat) => (((i + 1 : Nat) : ℚ) / (((m + 1 : Nat) : Nat) : ℚ)) * 100)) ++ [100]
      = ((0 : ℚ) :: ((List.range (m + 1)).map
        (fun (i : Nat) => (((i + 1 : Nat) : ℚ) / (((m + 1 : Nat) : Nat) : ℚ)) * 100))) ++ [100]
      from rfl]
    rw [List.chain'_append]
    have hn : (0 : ℚ) < ((m + 1 : Nat) : ℚ) := by positivity
    refine ⟨?_, List.chain'_singleton _, ?_⟩
    · rw [List.chain'_cons']
      constructor
      · intro y hy
        rw [List.range_succ_eq_map, List.map_cons, List.head?_cons, Option.mem_def] at hy
        injection hy with hy'
        rw [← hy']
        positivity
      · rw [List.chain'_map, List.chain'_range_succ]
        intro i _
        have h2 : (((i + 1 : Nat) : ℚ)) / (((m + 1 : Nat) : Nat) : ℚ)
            ≤ (((i + 1 + 1 : Nat) : ℚ)) / (((m + 1 : Nat) : Nat) : ℚ) := by
          gcongr
          omega
        exact mul_le_mul_of_nonneg_right h2 (by norm_num : (0 : ℚ) ≤ 100)
    · intro x hx y hy
      rw [List.head?_cons, Option.mem_def] at hy
      injection hy with hy'
      have hL : ((0 : ℚ) :: (List.range (m + 1)).map
            (fun (i : Nat) => (((i + 1 : Nat) : ℚ) / (((m + 1 : Nat) : Nat) : ℚ)) * 100))
          = ((0 : ℚ) :: (List.range m).map
            (fun (i : Nat) => (((i + 1 : Nat) : ℚ) / (((m + 1 : Nat) : Nat) : ℚ)) * 100))
            ++ [(((m + 1 : Nat) : ℚ) / (((m + 1 : Nat) : Nat) : ℚ)) * 100] := by
        rw [List.range_succ, List.map_append]
        rfl
      rw [hL, List.getLast?_concat, Option.mem_def] at hx
      injection hx with hx'
      rw [← hx', ← hy']
      rw [div_self (ne_of_gt hn)]
      norm_num

/-- C8 counterexample: restoring a one-entry manifest persists the write
sequence `(in_progress, 0)`, `(in_progress, 100)`, `(completed, 100)` — the
second persisted write already has progress exactly 100 while the restore's
status is still `"in_progress"`, falsifying "reaches exactly 100 only in a
state where the restore's status is completed". -/
theorem claim_C8_counterexample :
    (restore_from_backup c7State 9 "backup_9_full" []).2.2 =
      [⟨"in_progress", 0⟩, ⟨"in_progress", 100⟩, ⟨"completed", 100⟩] ∧
    ∃ w ∈ (restore_from_backup c7State 9 "backup_9_full" []).2.2,
      w.progress_percent = 100 ∧ w.status ≠ "completed" := by
  have hchar : (restore_from_backup c7State 9 "backup_9_full" []).2.2 =
      [⟨"in_progress", 0⟩,
       ⟨"in_progress", (((0 + 1 : Nat) : ℚ) / ((1 : Nat) : ℚ)) * 100⟩,
       ⟨"completed", 100⟩] := rfl
  have hq : (((0 + 1 : Nat) : ℚ) / ((1 : Nat) : ℚ)) * 100 = 100 := by norm_num
  rw [hq] at hchar
  refine ⟨hchar, ⟨"in_progress", 100⟩, ?_, rfl, by decide⟩
  rw [hchar]
  simp

/-- C8 (amended): over every successful restore, the persisted progress
trace is exactly `0, 1/n*100, …, n/n*100, 100` (progress equals
restored-files over total manifest entries after each file) and is
non-decreasing across successive catalog writes — but progress reaches
exactly 100 already at the final per-file write, whose persisted status is
still `"in_progress"`; the status becomes `"completed"` only in the
immediately following write. -/
theorem claim_C8_progress_trace (s : SysState) (now : Nat) (bid : String)
    (scope : List (String × Bool)) (md : BackupRow) (tree : List (String × FileBytes))
    (hmd : get_backup_metadata s.backups bid = some md)
    (harch : alookup bid s.archives = some (ArchiveFile.valid tree)) :
    ((restore_from_backup s now bid scope).2.2).map (fun w => w.progress_percent) =
      progsOf md.files_included.length ∧
    List.Chain' (fun a b => a.progress_percent ≤ b.progress_percent)
      (restore_from_backup s now bid scope).2.2 ∧
    (restore_from_backup s now bid scope).2.2 =
      (⟨"in_progress", 0⟩ : RWrite) :: ((List.range md.files_included.length).map
        (fun (i : Nat) =>
          ⟨"in_progress", (((i + 1 : Nat) : ℚ) / ((md.files_included.length : Nat) : ℚ)) * 100⟩))
        ++ [⟨"completed", 100⟩] ∧
    (0 < md.files_included.length →
      ∃ w ∈ (restore_from_backup s now bid scope).2.2,
        w.progress_percent = 100 ∧ w.status = "in_progress") := by
  have hsucc := restore_from_backup_success s now bid scope md tree hmd harch
  have hw := (restoreStep_foldl_writes scope tree md.files_included.length
    md.files_included
    { dataRoots := s.dataRoots, writes := [⟨"in_progress", 0⟩], restored := 0 }).1
  have h2 : (restore_from_backup s now bid scope).2.2 =
      (md.files_included.foldl (restoreStep scope tree md.files_included.length)
        { dataRoots := s.dataRoots, writes := [⟨"in_progress", 0⟩], restored := 0 }).writes
        ++ [⟨"completed", 100⟩] := by
    rw [hsucc]
  have hchar : (restore_from_backup s now bid scope).2.2 =
      (⟨"in_progress", 0⟩ : RWrite) :: ((List.range md.files_included.length).map
        (fun (i : Nat) =>
          ⟨"in_progress", (((i + 1 : Nat) : ℚ) / ((md.files_included.length : Nat) : ℚ)) * 100⟩))
        ++ [⟨"completed", 100⟩] := by
    rw [h2, hw, List.singleton_append]
    show (⟨"in_progress", 0⟩ : RWrite) :: (_ ++ [(⟨"completed", 100⟩ : RWrite)]) = _
    congr 2
    apply List.map_congr_left
    intro i _
    simp
  have hmap : ((restore_from_backup s now bid scope).2.2).map (fun w => w.progress_percent) =
      progsOf md.files_included.length := by
    rw [hchar]
    unfold progsOf
    simp [List.map_map, Function.comp]
  refine ⟨hmap, ?_, hchar, ?_⟩
  · have hch := chain'_progsOf md.files_included.length
    rw [← hmap] at hch
    exact (List.chain'_map _).1 hch
  · intro hpos
    refine ⟨⟨"in_progress",
        (((md.files_included.length - 1 + 1 : Nat) : ℚ) /
          ((md.files_included.length : Nat) : ℚ)) * 100⟩, ?_, ?_, rfl⟩
    · rw [hchar]
      refine List.mem_cons_of_mem _ (List.mem_append_left _ ?_)
      exact List.mem_map.2 ⟨md.files_included.length - 1, List.mem_range.2 (by omega), rfl⟩
    · have he : md.files_included.length - 1 + 1 = md.files_included.length := by omega
      rw [he]
      have hne : ((md.files_included.length : Nat) : ℚ) ≠ 0 := by
        exact_mod_cast Nat.pos_iff_ne_zero.1 hpos
      rw [div_self hne]
      norm_num

/-- Witness for the amended C8 theorem: the trace of the concrete
one-entry-manifest restore matches the characterisation. -/
theorem claim_C8_progress_trace_witness :
    (restore_from_backup c7State 9 "backup_9_full" c7Scope).2.2 =
      (⟨"in_progress", 0⟩ : RWrite) :: ((List.range c7Row.files_included.length).map
        (fun (i : Nat) =>
          ⟨"in_progress", (((i + 1 : Nat) : ℚ) / ((c7Row.files_included.length : Nat) : ℚ)) * 100⟩))
        ++ [⟨"completed", 100⟩] :=
  (claim_C8_progress_trace c7State 9 "backup_9_full" c7Scope c7Row
    [("conversations/chat.json", [1])] (by rfl) (by rfl)).2.2.1
